import Mathlib

/-!
A shallow embedding of the berrypatch core (`src/berrypatch/core.py` and the
variable-handling part of `src/berrypatch/cli.py`): template rendering, app
loading, instance creation and lifecycle, and the registry operations,
together with theorems settling the specification claims.

Modelling conventions:

* Filesystem paths are component lists (`Path := List String`); joining a
  path with a filename appends a component (`os.path.join`).
  `os.path.abspath(os.path.expanduser(...))` is modelled as the identity.
* File contents are a small inductive (`FileData`): plain text, a template
  parsed into segments, a parsed `berry.json`, or a parsed
  `berry-meta.json`.  The structured constructors stand for the serialized
  bytes of those files: `json.dumps`/`json.loads` on the dictionaries
  involved is deterministic and round-trips exactly, so equality of
  `FileData` values models byte-equality of the serialized file contents.
* Python dictionaries are association lists; `dict.__setitem__`/`update`
  with a single key is `aupdate` (removing the key and appending), whose
  lookup behaviour agrees with Python's.
* The external container runtime is an environment `RtEnv` assigning an
  exit status to every command (`subprocess.run(...).returncode`);
  operations additionally return the ordered trace of events (`Ev`):
  file writes, issued runtime commands, and recursive directory deletion.
* Jinja2 rendering with `StrictUndefined` (`render_template` in core.py)
  is modelled over templates parsed into literal and variable segments:
  substituting a variable that is absent from the context raises
  `UndefinedError`, which the model returns as an error value.
-/

abbrev FsPath : Type := List String

abbrev VarMap : Type := List (String × String)

/-- First-match association-list lookup (Python `dict` lookup). -/
def alookup {κ α : Type} [DecidableEq κ] : List (κ × α) → κ → Option α
  | [], _ => none
  | p :: rest, k => if p.1 = k then some p.2 else alookup rest k

/-- Remove every binding of a key from an association list. -/
def eraseKey {κ α : Type} [DecidableEq κ] : List (κ × α) → κ → List (κ × α)
  | [], _ => []
  | p :: rest, k => if p.1 = k then eraseKey rest k else p :: eraseKey rest k

/-- Association-list update (Python `d[k] = v`): remove the key, append the
new binding.  Its lookup behaviour agrees with a Python dictionary update. -/
def aupdate {κ α : Type} [DecidableEq κ] (l : List (κ × α)) (k : κ) (v : α) :
    List (κ × α) :=
  eraseKey l k ++ [(k, v)]

theorem alookup_append {κ α : Type} [DecidableEq κ] (l₁ l₂ : List (κ × α)) (k : κ) :
    alookup (l₁ ++ l₂) k = ((alookup l₁ k).rec (alookup l₂ k) (fun v => some v)) := by
  induction l₁ with
  | nil => simp [alookup]
  | cons p rest ih =>
    by_cases h : p.1 = k <;> simp [alookup, h, ih]

theorem alookup_eraseKey_ne {κ α : Type} [DecidableEq κ]
    (l : List (κ × α)) (k k' : κ) (h : k' ≠ k) :
    alookup (eraseKey l k) k' = alookup l k' := by
  induction l with
  | nil => simp [eraseKey]
  | cons p rest ih =>
    by_cases hp : p.1 = k
    · have hp' : ¬ p.1 = k' := fun hh => h (hh ▸ hp)
      simp [eraseKey, hp, alookup, hp', ih, Ne.symm h]
    · by_cases hp' : p.1 = k' <;> simp [eraseKey, hp, alookup, hp', ih, h]

theorem alookup_eraseKey_self {κ α : Type} [DecidableEq κ]
    (l : List (κ × α)) (k : κ) :
    alookup (eraseKey l k) k = none := by
  induction l with
  | nil => simp [eraseKey, alookup]
  | cons p rest ih =>
    by_cases hp : p.1 = k <;> simp [eraseKey, hp, alookup, ih]

theorem alookup_aupdate_self {κ α : Type} [DecidableEq κ]
    (l : List (κ × α)) (k : κ) (v : α) :
    alookup (aupdate l k v) k = some v := by
  rw [aupdate, alookup_append, alookup_eraseKey_self]
  simp [alookup]

theorem alookup_aupdate_ne {κ α : Type} [DecidableEq κ]
    (l : List (κ × α)) (k k' : κ) (v : α) (h : k' ≠ k) :
    alookup (aupdate l k v) k' = alookup l k' := by
  rw [aupdate, alookup_append, alookup_eraseKey_ne l k k' h]
  cases hl : alookup l k' <;> simp [alookup, Ne.symm h]

/-- One segment of a parsed jinja2 template: literal text or a variable
reference (`\x7b\x7b name \x7d\x7d`). -/
inductive Seg : Type
  | lit : String → Seg
  | var : String → Seg
deriving DecidableEq

/-- Model of `render_template` (core.py, lines 400-404): jinja2 rendering of
the parsed template against `context`, with `StrictUndefined` semantics — a
referenced variable absent from the context is an `UndefinedError`, never an
empty substitution. -/
def render_template : List Seg → VarMap → Except String String
  | [], _ => Except.ok ""
  | Seg.lit s :: rest, context => (render_template rest context).map (fun t => s ++ t)
  | Seg.var v :: rest, context =>
    match alookup context v with
    | none => Except.error v
    | some val => (render_template rest context).map (fun t => val ++ t)

/-- The variables referenced by a template. -/
def referenced_vars : List Seg → List String
  | [] => []
  | Seg.lit _ :: rest => referenced_vars rest
  | Seg.var v :: rest => v :: referenced_vars rest

theorem render_ok_of_bound (t : List Seg) (c : VarMap)
    (hall : ∀ v ∈ referenced_vars t, (alookup c v).isSome) :
    ∃ s, render_template t c = Except.ok s := by
  induction t with
  | nil => exact ⟨"", rfl⟩
  | cons seg rest ih =>
    cases seg with
    | lit s =>
      obtain ⟨w, hw⟩ := ih (fun v hv => hall v (by simp [referenced_vars, hv]))
      exact ⟨s ++ w, by simp [render_template, hw, Except.map]⟩
    | var v =>
      have hv : (alookup c v).isSome := hall v (by simp [referenced_vars])
      obtain ⟨val, hval⟩ := Option.isSome_iff_exists.mp hv
      obtain ⟨w, hw⟩ := ih (fun u hu => hall u (by simp [referenced_vars, hu]))
      exact ⟨val ++ w, by simp [render_template, hval, hw, Except.map]⟩

theorem render_bound_of_ok (t : List Seg) (c : VarMap) (s : String)
    (hok : render_template t c = Except.ok s) :
    ∀ v ∈ referenced_vars t, (alookup c v).isSome := by
  induction t generalizing s with
  | nil => simp [referenced_vars]
  | cons seg rest ih =>
    cases seg with
    | lit s' =>
      rcases hok' : render_template rest c with e | w
      · simp [render_template, hok', Except.map] at hok
      · intro v hv
        simp [referenced_vars] at hv
        exact ih w hok' v hv
    | var u =>
      rcases hu : alookup c u with _ | val
      · simp [render_template, hu] at hok
      · rcases hok' : render_template rest c with e | w
        · simp [render_template, hu, hok', Except.map] at hok
        · intro v hv
          simp [referenced_vars] at hv
          rcases hv with hv | hv
          · subst hv
            simp [hu]
          · exact ih w hok' v hv

/-- C2: `render_template` succeeds exactly when every referenced variable is
bound in the context; when a referenced variable is missing it fails (so it
never substitutes an empty string for the missing key); and rendering is a
pure function, so two successful calls on identical inputs produce
byte-identical output. -/
theorem render_strict (t : List Seg) (c : VarMap) :
    ((∀ v ∈ referenced_vars t, (alookup c v).isSome) → ∃ s, render_template t c = Except.ok s)
    ∧ (∀ v ∈ referenced_vars t, alookup c v = none →
        ∀ s, render_template t c ≠ Except.ok s)
    ∧ (∀ s s', render_template t c = Except.ok s → render_template t c = Except.ok s' →
        s = s') := by
  refine ⟨render_ok_of_bound t c, ?_, ?_⟩
  · intro v hv hnone s hok
    have := render_bound_of_ok t c s hok v hv
    rw [hnone] at this
    simp at this
  · intro s s' h h'
    rw [h] at h'
    exact Except.ok.inj h'

/-- Witness for C2 at a concrete input: a template referencing `A` renders
under a context binding `A`. -/
theorem render_strict_witness :
    ∃ s, render_template [Seg.var "A", Seg.lit "!"] [("A", "x")] = Except.ok s :=
  (render_strict [Seg.var "A", Seg.lit "!"] [("A", "x")]).1 (by decide)

/-- One declared variable from `berry.json` (`name`, with `description` and
`default` already resolved to `""` when absent, per `var.get(...)` in the
source). -/
structure VarDef : Type where
  name : String
  description : String
  default : String
deriving DecidableEq

/-- Parsed contents of a file on disk.  `text` is an opaque text file;
`tmpl` is a template file parsed into segments; `berry` is a parsed
`berry.json` (name, description, variable declarations, and the
`data_files` source-to-destination map); `meta` is a parsed
`berry-meta.json` (name, variables, and the destination-to-contents
`data_files` map written at create time).  The structured constructors
stand for the serialized bytes; serialization is deterministic and
round-trips, so `FileData` equality models byte equality. -/
inductive FileData : Type
  | text : String → FileData
  | tmpl : List Seg → FileData
  | berry : String → String → List VarDef → List (String × FsPath) → FileData
  | meta : String → VarMap → List (FsPath × String) → FileData
deriving DecidableEq

/-- Errors raised by the core (src/berrypatch/errors.py). -/
inductive BerryErr : Type
  | fileNotFound : FsPath → BerryErr
  | appNotFound : BerryErr
  | jsonError : String → BerryErr
  | undefinedVariable : String → BerryErr
deriving DecidableEq

/-- The filesystem: the set of existing directories and the files mapping
paths to contents. -/
structure Fs : Type where
  dirs : List FsPath
  files : List (FsPath × FileData)
deriving DecidableEq

/-- Does anything (directory or file) exist at this path
(`os.path.exists`)? -/
def Fs.existsPath (fs : Fs) (p : FsPath) : Bool :=
  decide (p ∈ fs.dirs) || (alookup fs.files p).isSome

/-- Is there a directory at this path (`os.path.isdir`)? -/
def Fs.isDir (fs : Fs) (p : FsPath) : Bool :=
  decide (p ∈ fs.dirs)

/-- Create a directory (`os.makedirs`). -/
def Fs.mkdir (fs : Fs) (p : FsPath) : Fs :=
  ⟨fs.dirs ++ [p], fs.files⟩

/-- `if not os.path.exists(p): os.makedirs(p)` (core.py, lines 166-168 and
172-175). -/
def Fs.ensureDir (fs : Fs) (p : FsPath) : Fs :=
  if fs.existsPath p then fs else fs.mkdir p

/-- Overwrite (or create) a file (`open(p, "w") ... fp.write`). -/
def Fs.writeFile (fs : Fs) (p : FsPath) (d : FileData) : Fs :=
  ⟨fs.dirs, aupdate fs.files p d⟩

/-- Apply a sequence of file writes in order. -/
def applyWrites (fs : Fs) (ws : List (FsPath × FileData)) : Fs :=
  ws.foldl (fun f w => f.writeFile w.1 w.2) fs

/-- A runtime command executed through the shell: a `docker-compose`
invocation scoped to a project name and compose file
(`run_compose_command`, core.py lines 354-366), or a plain `docker`
invocation (`run_docker_command`, lines 369-381). -/
inductive RtCmd : Type
  | compose : String → FsPath → String → List String → RtCmd
  | docker : List String → RtCmd
deriving DecidableEq

/-- The external container runtime: every command has an exit status
(`subprocess.run(...).returncode`). -/
def RtEnv : Type := RtCmd → Int

/-- An observable event of an operation: a file write, an issued runtime
command, or a recursive directory deletion (`shutil.rmtree`).  Events are
listed in execution order. -/
inductive Ev : Type
  | write : FsPath → FileData → Ev
  | rt : RtCmd → Ev
  | rmTree : FsPath → Ev
deriving DecidableEq

def DEFAULT_NETWORK_NAME : String := "berrypatch"

/-- The fixed network-attachment clause appended to every rendered compose
file (core.py, lines 24-29). -/
def COMPOSE_FOOTER : String :=
  "\nnetworks:\n  default:\n    external:\n        name: \"berrypatch\"\n"

/-- Model of `ensure_network` (core.py, lines 384-389): inspect the network;
on non-zero exit, create it.  The exit status of the create command is not
examined. -/
def ensure_network (env : RtEnv) (name : String) : List Ev :=
  let inspect := RtCmd.docker ["network", "inspect", name]
  if env inspect = 0 then [Ev.rt inspect]
  else [Ev.rt inspect, Ev.rt (RtCmd.docker ["network", "create", "--driver=bridge", name])]

/-- Render a path as a string (`os.path.join` output), used only as an
opaque context value for `APPDATA_DIR`. -/
def pathString (p : FsPath) : String :=
  String.intercalate "/" p

/-- An installable app as loaded by `App.load` (core.py, lines 65-122):
`data_files` maps each destination-relative path to the literal contents
read from the definition directory. -/
structure App : Type where
  name : String
  description : String
  compose_template : List Seg
  variable_definitions : List VarDef
  data_files : List (FsPath × String)
deriving DecidableEq

/-- A materialized instance (core.py, lines 143-149). -/
structure AppInstance : Type where
  app_name : String
  instance_dir : FsPath
  «variables» : VarMap
deriving DecidableEq

/-- Derived path of the compiled compose file (core.py, line 148): always
recomputed from `instance_dir`, never stored. -/
def AppInstance.compose_file (inst : AppInstance) : FsPath :=
  inst.instance_dir ++ ["docker-compose.yml"]

/-- Derived compose project name (core.py, line 149). -/
def AppInstance.compose_project_name (inst : AppInstance) : String :=
  inst.app_name

/-- The runtime command issued by `AppInstance._run_compose` (core.py,
lines 262-265). -/
def composeCmd (inst : AppInstance) (verb : String) (args : List String) : RtCmd :=
  RtCmd.compose inst.compose_project_name inst.compose_file verb args

/-- Model of `AppInstance.load` (core.py, lines 151-156): read
`berry-meta.json` from the instance directory and rebuild the instance from
its `name` and `variables` fields alone.  The `App` is never consulted. -/
def AppInstance.load (fs : Fs) (instance_dir : FsPath) : Except BerryErr AppInstance :=
  match alookup fs.files (instance_dir ++ ["berry-meta.json"]) with
  | some (FileData.meta n vars _) => Except.ok ⟨n, instance_dir, vars⟩
  | some _ => Except.error (BerryErr.jsonError "berry-meta.json")
  | none => Except.error (BerryErr.fileNotFound (instance_dir ++ ["berry-meta.json"]))

/-- The file writes performed by `AppInstance.create` in execution order
(core.py, lines 184-206): the rendered compose file with the fixed footer
appended, one write per app data file into the `appdata` directory, and
finally the `berry-meta.json` metadata capturing name, variables and data
files. -/
def createWrites (app : App) (instance_dir : FsPath) («variables» : VarMap)
    (rendered : String) : List (FsPath × FileData) :=
  (instance_dir ++ ["docker-compose.yml"], FileData.text (rendered ++ COMPOSE_FOOTER))
    :: (app.data_files.map (fun p => (instance_dir ++ "appdata" :: p.1, FileData.text p.2))
        ++ [(instance_dir ++ ["berry-meta.json"],
             FileData.meta app.name «variables» app.data_files)])

/-- Model of `AppInstance.pull` (core.py, lines 247-248): run
`docker-compose pull`; the result is discarded. -/
def AppInstance.pull (env : RtEnv) (inst : AppInstance) : List Ev :=
  [Ev.rt (composeCmd inst "pull" [])]

/-- Model of `AppInstance.create` (core.py, lines 158-211): normalize the
directory (modelled as the identity), create the instance and data
directories if absent (a pre-existing non-directory is fatal), render the
template over the variables merged with `APPDATA_DIR`, write the compose
file, the data files and the metadata file, reload the instance from disk,
ensure the shared network, and pull images.  The exit statuses of the
network commands and the pull are not examined. -/
def AppInstance.create (env : RtEnv) (app : App) (instance_dir : FsPath)
    («variables» : VarMap) (fs : Fs) : Except BerryErr (Fs × AppInstance × List Ev) :=
  let fs1 := fs.ensureDir instance_dir
  if fs1.isDir instance_dir = false then Except.error (BerryErr.fileNotFound instance_dir)
  else
    let data_dir := instance_dir ++ ["appdata"]
    let fs2 := fs1.ensureDir data_dir
    if fs2.isDir data_dir = false then Except.error (BerryErr.fileNotFound data_dir)
    else
      let context := aupdate «variables» "APPDATA_DIR" (pathString data_dir)
      match render_template app.compose_template context with
      | Except.error v => Except.error (BerryErr.undefinedVariable v)
      | Except.ok rendered =>
        let ws := createWrites app instance_dir «variables» rendered
        let fs3 := applyWrites fs2 ws
        match AppInstance.load fs3 instance_dir with
        | Except.error e => Except.error e
        | Except.ok inst =>
          Except.ok (fs3, inst,
            ws.map (fun w => Ev.write w.1 w.2)
              ++ ensure_network env DEFAULT_NETWORK_NAME
              ++ AppInstance.pull env inst)

/-- Model of `AppInstance.start` (core.py, lines 229-233): ensure the
shared network, run `docker-compose up -d`, and return whether the exit
status was zero. -/
def AppInstance.start (env : RtEnv) (inst : AppInstance) : Bool × List Ev :=
  let ev := ensure_network env DEFAULT_NETWORK_NAME
  let c := composeCmd inst "up" ["-d"]
  (decide (env c = 0), ev ++ [Ev.rt c])

/-- Model of `AppInstance.stop` (core.py, lines 235-236): run
`docker-compose down`; the result is discarded and nothing is returned. -/
def AppInstance.stop (env : RtEnv) (inst : AppInstance) : List Ev :=
  [Ev.rt (composeCmd inst "down" [])]

/-- Model of `AppInstance.destroy` (core.py, lines 238-239, the later of
the two definitions, which Python keeps): run `docker-compose rm -v`; the
result is discarded. -/
def AppInstance.destroy (env : RtEnv) (inst : AppInstance) : List Ev :=
  [Ev.rt (composeCmd inst "rm" ["-v"])]

/-- Model of `AppInstance.kill` (core.py, lines 241-242). -/
def AppInstance.kill (env : RtEnv) (inst : AppInstance) : List Ev :=
  [Ev.rt (composeCmd inst "kill" [])]

/-- Model of `AppInstance.restart` (core.py, lines 244-245). -/
def AppInstance.restart (env : RtEnv) (inst : AppInstance) : List Ev :=
  [Ev.rt (composeCmd inst "restart" [])]

theorem dirs_applyWrites (fs : Fs) (ws : List (FsPath × FileData)) :
    (applyWrites fs ws).dirs = fs.dirs := by
  induction ws generalizing fs with
  | nil => rfl
  | cons w rest ih => simpa [applyWrites, Fs.writeFile] using ih (fs.writeFile w.1 w.2)

theorem applyWrites_append (fs : Fs) (ws₁ ws₂ : List (FsPath × FileData)) :
    applyWrites fs (ws₁ ++ ws₂) = applyWrites (applyWrites fs ws₁) ws₂ := by
  simp [applyWrites, List.foldl_append]

theorem alookup_applyWrites_not_mem (fs : Fs) (ws : List (FsPath × FileData)) (k : FsPath)
    (h : k ∉ ws.map Prod.fst) :
    alookup (applyWrites fs ws).files k = alookup fs.files k := by
  induction ws generalizing fs with
  | nil => rfl
  | cons w rest ih =>
    rw [List.map_cons] at h
    have hne : k ≠ w.1 := fun hk => h (hk ▸ List.mem_cons_self w.1 (rest.map Prod.fst))
    have hrest : k ∉ rest.map Prod.fst := fun hk => h (List.mem_cons_of_mem w.1 hk)
    rw [applyWrites, List.foldl_cons]
    have := ih (fs.writeFile w.1 w.2) hrest
    rw [applyWrites] at this
    rw [this, Fs.writeFile]
    exact alookup_aupdate_ne fs.files w.1 k w.2 hne

theorem alookup_applyWrites_indep (ws : List (FsPath × FileData)) (k : FsPath)
    (h : k ∈ ws.map Prod.fst) (fs fs' : Fs) :
    alookup (applyWrites fs ws).files k = alookup (applyWrites fs' ws).files k := by
  induction ws generalizing fs fs' with
  | nil => exact absurd h (List.not_mem_nil k)
  | cons w rest ih =>
    by_cases hk : k ∈ rest.map Prod.fst
    · rw [applyWrites, List.foldl_cons, applyWrites, List.foldl_cons]
      exact ih hk _ _
    · rw [List.map_cons] at h
      rcases List.mem_cons.mp h with h | h

      · rw [applyWrites, List.foldl_cons, applyWrites, List.foldl_cons]
        have h1 := alookup_applyWrites_not_mem (fs.writeFile w.1 w.2) rest k hk
        have h2 := alookup_applyWrites_not_mem (fs'.writeFile w.1 w.2) rest k hk
        rw [applyWrites] at h1 h2
        rw [h1, h2, Fs.writeFile, Fs.writeFile, h]
        rw [alookup_aupdate_self, alookup_aupdate_self]
      · exact absurd h hk

theorem alookup_applyWrites_nodup_mem (fs : Fs) (ws : List (FsPath × FileData))
    (k : FsPath) (v : FileData) (hnd : (ws.map Prod.fst).Nodup) (h : (k, v) ∈ ws) :
    alookup (applyWrites fs ws).files k = some v := by
  induction ws generalizing fs with
  | nil => exact absurd h (List.not_mem_nil (k, v))
  | cons w rest ih =>
    rw [List.map_cons, List.nodup_cons] at hnd
    rcases List.mem_cons.mp h with h | h
    · rw [applyWrites, List.foldl_cons]
      have hk : k ∉ rest.map Prod.fst := by
        intro hk
        exact hnd.1 ((congrArg Prod.fst h) ▸ hk)
      have := alookup_applyWrites_not_mem (fs.writeFile w.1 w.2) rest k hk
      rw [applyWrites] at this
      rw [this, Fs.writeFile]
      have hk1 : w.1 = k := congrArg Prod.fst h.symm
      rw [← hk1]
      have hv : w.2 = v := congrArg Prod.snd h.symm
      rw [← hv]
      exact alookup_aupdate_self fs.files w.1 w.2
    · rw [applyWrites, List.foldl_cons]
      exact ih (fs.writeFile w.1 w.2) hnd.2 h

theorem create_meta_lookup (app : App) (dir : FsPath) (vars : VarMap) (r : String) (fs : Fs) :
    alookup (applyWrites fs (createWrites app dir vars r)).files (dir ++ ["berry-meta.json"])
      = some (FileData.meta app.name vars app.data_files) := by
  rw [createWrites, ← List.cons_append, applyWrites_append]
  rw [applyWrites, List.foldl_cons, List.foldl_nil, Fs.writeFile]
  exact alookup_aupdate_self _ _ _

theorem load_applyWrites_createWrites (app : App) (dir : FsPath) (vars : VarMap)
    (r : String) (fs : Fs) :
    AppInstance.load (applyWrites fs (createWrites app dir vars r)) dir
      = Except.ok ⟨app.name, dir, vars⟩ := by
  rw [AppInstance.load, create_meta_lookup]

theorem create_ok_elim (env : RtEnv) (app : App) (dir : FsPath) (vars : VarMap)
    (fs fs' : Fs) (inst : AppInstance) (ev : List Ev)
    (h : AppInstance.create env app dir vars fs = Except.ok (fs', inst, ev)) :
    ∃ rendered,
      render_template app.compose_template
          (aupdate vars "APPDATA_DIR" (pathString (dir ++ ["appdata"]))) = Except.ok rendered
      ∧ inst = ⟨app.name, dir, vars⟩
      ∧ fs' = applyWrites ((fs.ensureDir dir).ensureDir (dir ++ ["appdata"]))
            (createWrites app dir vars rendered)
      ∧ ev = (createWrites app dir vars rendered).map (fun w => Ev.write w.1 w.2)
            ++ ensure_network env DEFAULT_NETWORK_NAME
            ++ [Ev.rt (composeCmd ⟨app.name, dir, vars⟩ "pull" [])]
      ∧ (fs.ensureDir dir).isDir dir = true
      ∧ ((fs.ensureDir dir).ensureDir (dir ++ ["appdata"])).isDir (dir ++ ["appdata"]) = true := by
  simp only [AppInstance.create] at h
  by_cases h1 : (fs.ensureDir dir).isDir dir = false
  · rw [if_pos h1] at h
    exact absurd h (by simp)
  rw [if_neg h1] at h
  by_cases h2 : ((fs.ensureDir dir).ensureDir (dir ++ ["appdata"])).isDir (dir ++ ["appdata"]) = false
  · rw [if_pos h2] at h
    exact absurd h (by simp)
  rw [if_neg h2] at h
  rcases hr : render_template app.compose_template
      (aupdate vars "APPDATA_DIR" (pathString (dir ++ ["appdata"]))) with v | rendered
  · rw [hr] at h
    exact absurd h (by simp)
  rw [hr] at h
  dsimp only at h
  rw [load_applyWrites_createWrites] at h
  dsimp only at h
  have h' := Except.ok.inj h
  have hfs : applyWrites ((fs.ensureDir dir).ensureDir (dir ++ ["appdata"]))
      (createWrites app dir vars rendered) = fs' := congrArg Prod.fst h'
  have hinst : (⟨app.name, dir, vars⟩ : AppInstance) = inst := congrArg (fun t => t.2.1) h'
  have hev : (createWrites app dir vars rendered).map (fun w => Ev.write w.1 w.2)
      ++ ensure_network env DEFAULT_NETWORK_NAME
      ++ [Ev.rt (composeCmd ⟨app.name, dir, vars⟩ "pull" [])] = ev := congrArg (fun t => t.2.2) h'
  refine ⟨rendered, rfl, hinst.symm, hfs.symm, ?_, by simpa using h1, by simpa using h2⟩
  rw [← hev]

/-- C1: whenever `AppInstance.create(app, dir, vars)` succeeds, loading the
returned instance's directory from the resulting filesystem reads the
persisted variables back verbatim — `load` consults only the on-disk
`berry-meta.json`, never the `App`. -/
theorem round_trip_variables (env : RtEnv) (app : App) (dir : FsPath) (vars : VarMap)
    (fs fs' : Fs) (inst : AppInstance) (ev : List Ev)
    (h : AppInstance.create env app dir vars fs = Except.ok (fs', inst, ev)) :
    ∃ inst', AppInstance.load fs' inst.instance_dir = Except.ok inst'
      ∧ inst'.variables = vars := by
  obtain ⟨r, hr, hinst, hfs, hev, hd1, hd2⟩ := create_ok_elim env app dir vars fs fs' inst ev h
  subst hinst
  subst hfs
  exact ⟨⟨app.name, dir, vars⟩, load_applyWrites_createWrites app dir vars r _, rfl⟩

def env0 : RtEnv := fun _ => 0

def app0 : App := ⟨"redis", "a redis server", [Seg.lit "services: redis"], [], []⟩

def dir0 : FsPath := ["instances", "redis"]

def fs0 : Fs := ⟨[], []⟩

/-- The result of a concrete successful `create`, used by witnesses. -/
def createRes0 : Fs × AppInstance × List Ev :=
  match AppInstance.create env0 app0 dir0 [("A", "1")] fs0 with
  | Except.ok t => t
  | Except.error _ => (fs0, ⟨"", [], []⟩, [])

/-- Witness for C1 at a concrete input. -/
theorem round_trip_variables_witness :
    ∃ inst', AppInstance.load createRes0.1 createRes0.2.1.instance_dir = Except.ok inst'
      ∧ inst'.variables = [("A", "1")] :=
  round_trip_variables env0 app0 dir0 [("A", "1")] fs0 createRes0.1 createRes0.2.1
    createRes0.2.2 (by rfl)

/-- Does this event write the file at path `k`? -/
def writesTo (k : FsPath) : Ev → Bool
  | Ev.write p _ => decide (p = k)
  | _ => false

theorem dirs_ensureDir_mono (fs : Fs) (p q : FsPath) (h : p ∈ fs.dirs) :
    p ∈ (fs.ensureDir q).dirs := by
  rw [Fs.ensureDir]
  split
  · exact h
  · simp [Fs.mkdir]
    left
    exact h

theorem fspath_append_singleton_ne (dir : FsPath) (a b : String) (hab : a ≠ b) :
    dir ++ [a] ≠ dir ++ [b] := by
  intro h
  have := List.append_cancel_left h
  simp at this
  exact hab this

theorem fspath_append_singleton_ne_cons (dir : FsPath) (a b : String) (rel : FsPath)
    (hab : a ≠ b) : dir ++ [a] ≠ dir ++ b :: rel := by
  intro h
  have := List.append_cancel_left h
  rw [List.cons.injEq] at this
  exact hab this.1

theorem createWrites_keys_nodup (app : App) (dir : FsPath) (vars : VarMap) (r : String)
    (hnd : (app.data_files.map Prod.fst).Nodup) :
    ((createWrites app dir vars r).map Prod.fst).Nodup := by
  have hkeys : (createWrites app dir vars r).map Prod.fst
      = (dir ++ ["docker-compose.yml"])
        :: (app.data_files.map (fun p => dir ++ "appdata" :: p.1)
            ++ [dir ++ ["berry-meta.json"]]) := by
    rw [createWrites]
    simp
  rw [hkeys, List.nodup_cons]
  constructor
  · intro hmem
    rcases List.mem_append.mp hmem with hmem | hmem
    · obtain ⟨p, hp1, hp⟩ := List.mem_map.mp hmem
      exact fspath_append_singleton_ne_cons dir "docker-compose.yml" "appdata" p.1
        (by decide) hp.symm
    · have heq := List.mem_singleton.mp hmem
      exact fspath_append_singleton_ne dir "docker-compose.yml" "berry-meta.json"
        (by decide) heq
  · rw [List.nodup_append]
    refine ⟨?_, List.nodup_singleton _, ?_⟩
    · have hmapmap : app.data_files.map (fun p => dir ++ "appdata" :: p.1)
          = (app.data_files.map Prod.fst).map (fun q => dir ++ "appdata" :: q) := by
        rw [List.map_map]
        rfl
      rw [hmapmap]
      refine List.Nodup.map ?_ hnd
      intro x y hxy
      have h1 := List.append_cancel_left hxy
      exact ((List.cons.injEq _ _ _ _).mp h1).2
    · intro a ha hb
      obtain ⟨p, hp1, hp⟩ := List.mem_map.mp ha
      have heq := List.mem_singleton.mp hb
      rw [← hp] at heq
      exact fspath_append_singleton_ne_cons dir "berry-meta.json" "appdata" p.1
        (by decide) heq.symm

theorem compose_key_mem_createWrites (app : App) (dir : FsPath) (vars : VarMap) (r : String) :
    (dir ++ ["docker-compose.yml"]) ∈ (createWrites app dir vars r).map Prod.fst := by
  rw [createWrites]
  simp

theorem meta_key_mem_createWrites (app : App) (dir : FsPath) (vars : VarMap) (r : String) :
    (dir ++ ["berry-meta.json"]) ∈ (createWrites app dir vars r).map Prod.fst := by
  rw [createWrites]
  simp

/-- If both the instance directory and the data directory already exist as
directories and the template renders, `create` succeeds with the
deterministic artifacts. -/
theorem create_of_dirs (env : RtEnv) (app : App) (dir : FsPath) (vars : VarMap) (fs : Fs)
    (r : String) (hd : dir ∈ fs.dirs) (hdd : (dir ++ ["appdata"]) ∈ fs.dirs)
    (hr : render_template app.compose_template
        (aupdate vars "APPDATA_DIR" (pathString (dir ++ ["appdata"]))) = Except.ok r) :
    AppInstance.create env app dir vars fs =
      Except.ok (applyWrites fs (createWrites app dir vars r),
        ⟨app.name, dir, vars⟩,
        (createWrites app dir vars r).map (fun w => Ev.write w.1 w.2)
          ++ ensure_network env DEFAULT_NETWORK_NAME
          ++ [Ev.rt (composeCmd ⟨app.name, dir, vars⟩ "pull" [])]) := by
  have hex : fs.existsPath dir = true := by simp [Fs.existsPath, hd]
  have hexd : fs.existsPath (dir ++ ["appdata"]) = true := by simp [Fs.existsPath, hdd]
  have hi1 : fs.isDir dir = true := by simp [Fs.isDir, hd]
  have hi2 : fs.isDir (dir ++ ["appdata"]) = true := by simp [Fs.isDir, hdd]
  have hens : fs.ensureDir dir = fs := by rw [Fs.ensureDir, if_pos hex]
  have hensd : fs.ensureDir (dir ++ ["appdata"]) = fs := by rw [Fs.ensureDir, if_pos hexd]
  simp only [AppInstance.create, hens, hensd, hi1, hi2]
  simp only [Bool.true_eq_false, if_false]
  rw [hr]
  dsimp only
  rw [load_applyWrites_createWrites]
  rfl

theorem filter_writesTo_map_events (ws : List (FsPath × FileData)) (k : FsPath) :
    ((ws.map (fun w => Ev.write w.1 w.2)).filter (writesTo k)).length
      = (ws.filter (fun w => decide (w.1 = k))).length := by
  induction ws with
  | nil => rfl
  | cons w rest ih =>
    by_cases h : w.1 = k <;>
      simp [List.filter_cons, writesTo, h, ih]

theorem filter_key_length_zero (ws : List (FsPath × FileData)) (k : FsPath)
    (h : k ∉ ws.map Prod.fst) :
    (ws.filter (fun w => decide (w.1 = k))).length = 0 := by
  induction ws with
  | nil => rfl
  | cons w rest ih =>
    rw [List.map_cons] at h
    have hne : ¬ w.1 = k := fun hk => h (hk ▸ List.mem_cons_self w.1 (rest.map Prod.fst))
    have hrest : k ∉ rest.map Prod.fst := fun hk => h (List.mem_cons_of_mem w.1 hk)
    simp [List.filter_cons, hne, ih hrest]

theorem filter_key_length_one (ws : List (FsPath × FileData)) (k : FsPath)
    (hnd : (ws.map Prod.fst).Nodup) (hk : k ∈ ws.map Prod.fst) :
    (ws.filter (fun w => decide (w.1 = k))).length = 1 := by
  induction ws with
  | nil => exact absurd hk (List.not_mem_nil k)
  | cons w rest ih =>
    rw [List.map_cons, List.nodup_cons] at hnd
    rw [List.map_cons] at hk
    by_cases h : w.1 = k
    · have hrest : k ∉ rest.map Prod.fst := h ▸ hnd.1
      simp [List.filter_cons, h, filter_key_length_zero rest k hrest]
    · rcases List.mem_cons.mp hk with hk | hk
      · exact absurd hk.symm h
      · simp [List.filter_cons, h, ih hnd.2 hk]

theorem ensure_network_no_writes (env : RtEnv) (n : String) (k : FsPath) :
    (ensure_network env n).filter (writesTo k) = [] := by
  simp only [ensure_network]
  split <;> rfl

/-- C3: `AppInstance.create` is idempotent: if a create succeeds, running it
again with the same `(app, dir, vars)` succeeds and produces byte-identical
compose and metadata files; and within one create, each app data file (the
destinations being distinct, as they come from a Python dict) is written
into the `appdata` data directory exactly once, overwriting any prior copy
at the same relative path. -/
theorem create_idempotent (env : RtEnv) (app : App) (dir : FsPath) (vars : VarMap)
    (fs fs1 : Fs) (i1 : AppInstance) (ev1 : List Ev)
    (h : AppInstance.create env app dir vars fs = Except.ok (fs1, i1, ev1))
    (hnd : (app.data_files.map Prod.fst).Nodup) :
    ∃ fs2 i2 ev2, AppInstance.create env app dir vars fs1 = Except.ok (fs2, i2, ev2)
      ∧ alookup fs2.files (dir ++ ["docker-compose.yml"])
          = alookup fs1.files (dir ++ ["docker-compose.yml"])
      ∧ alookup fs2.files (dir ++ ["berry-meta.json"])
          = alookup fs1.files (dir ++ ["berry-meta.json"])
      ∧ ∀ p ∈ app.data_files,
          alookup fs1.files (dir ++ "appdata" :: p.1) = some (FileData.text p.2)
          ∧ (ev1.filter (writesTo (dir ++ "appdata" :: p.1))).length = 1 := by
  obtain ⟨r, hr, hi, hfs, hev, hd1, hd2⟩ := create_ok_elim env app dir vars fs fs1 i1 ev1 h
  have hbase1 : dir ∈ ((fs.ensureDir dir).ensureDir (dir ++ ["appdata"])).dirs := by
    have hmem : dir ∈ (fs.ensureDir dir).dirs := by simpa [Fs.isDir] using hd1
    exact dirs_ensureDir_mono _ _ _ hmem
  have hbase2 : (dir ++ ["appdata"])
      ∈ ((fs.ensureDir dir).ensureDir (dir ++ ["appdata"])).dirs := by
    simpa [Fs.isDir] using hd2
  have hm1 : dir ∈ fs1.dirs := by
    rw [hfs, dirs_applyWrites]
    exact hbase1
  have hm2 : (dir ++ ["appdata"]) ∈ fs1.dirs := by
    rw [hfs, dirs_applyWrites]
    exact hbase2
  have h2 := create_of_dirs env app dir vars fs1 r hm1 hm2 hr
  refine ⟨_, _, _, h2, ?_, ?_, ?_⟩
  · rw [hfs]
    exact alookup_applyWrites_indep _ _ (compose_key_mem_createWrites app dir vars r) _ _
  · rw [hfs]
    exact alookup_applyWrites_indep _ _ (meta_key_mem_createWrites app dir vars r) _ _
  · intro p hp
    have hpairmem : (dir ++ "appdata" :: p.1, FileData.text p.2)
        ∈ createWrites app dir vars r := by
      rw [createWrites]
      exact List.mem_cons_of_mem _ (List.mem_append_left _
        (List.mem_map_of_mem (fun q : FsPath × String =>
          (dir ++ "appdata" :: q.1, FileData.text q.2)) hp))
    have hkeymem : (dir ++ "appdata" :: p.1) ∈ (createWrites app dir vars r).map Prod.fst :=
      List.mem_map_of_mem Prod.fst hpairmem
    constructor
    · rw [hfs]
      exact alookup_applyWrites_nodup_mem _ _ _ _
        (createWrites_keys_nodup app dir vars r hnd) hpairmem
    · rw [hev, List.filter_append, List.filter_append, List.length_append,
        List.length_append, ensure_network_no_writes]
      have hpull : ([Ev.rt (composeCmd ⟨app.name, dir, vars⟩ "pull" [])].filter
          (writesTo (dir ++ "appdata" :: p.1))) = [] := rfl
      rw [hpull]
      simp only [List.length_nil, Nat.add_zero]
      rw [filter_writesTo_map_events]
      exact filter_key_length_one _ _ (createWrites_keys_nodup app dir vars r hnd) hkeymem

def app1 : App := ⟨"grafana", "dashboards", [Seg.var "APPDATA_DIR"], [],
  [(["conf", "g.ini"], "x=1"), (["g.env"], "Y=2")]⟩

def dir1 : FsPath := ["instances", "grafana"]

/-- The result of a concrete successful `create` of an app with data files,
used by witnesses. -/
def createRes1 : Fs × AppInstance × List Ev :=
  match AppInstance.create env0 app1 dir1 [] fs0 with
  | Except.ok t => t
  | Except.error _ => (fs0, ⟨"", [], []⟩, [])

/-- Witness for C3 at a concrete input. -/
theorem create_idempotent_witness :
    ∃ fs2 i2 ev2,
      AppInstance.create env0 app1 dir1 [] createRes1.1 = Except.ok (fs2, i2, ev2)
      ∧ alookup fs2.files (dir1 ++ ["docker-compose.yml"])
          = alookup createRes1.1.files (dir1 ++ ["docker-compose.yml"])
      ∧ alookup fs2.files (dir1 ++ ["berry-meta.json"])
          = alookup createRes1.1.files (dir1 ++ ["berry-meta.json"])
      ∧ ∀ p ∈ app1.data_files,
          alookup createRes1.1.files (dir1 ++ "appdata" :: p.1) = some (FileData.text p.2)
          ∧ (createRes1.2.2.filter (writesTo (dir1 ++ "appdata" :: p.1))).length = 1 :=
  create_idempotent env0 app1 dir1 [] fs0 createRes1.1 createRes1.2.1 createRes1.2.2
    (by rfl) (by decide)

theorem create_env_indep (env env' : RtEnv) (app : App) (dir : FsPath) (vars : VarMap)
    (fs : Fs) :
    (AppInstance.create env app dir vars fs).map (fun t => (t.1, t.2.1))
      = (AppInstance.create env' app dir vars fs).map (fun t => (t.1, t.2.1)) := by
  simp only [AppInstance.create]
  by_cases h1 : (fs.ensureDir dir).isDir dir = false
  · rw [if_pos h1, if_pos h1]
  · rw [if_neg h1, if_neg h1]
    by_cases h2 : ((fs.ensureDir dir).ensureDir (dir ++ ["appdata"])).isDir
        (dir ++ ["appdata"]) = false
    · rw [if_pos h2, if_pos h2]
    · rw [if_neg h2, if_neg h2]
      rcases hr : render_template app.compose_template
          (aupdate vars "APPDATA_DIR" (pathString (dir ++ ["appdata"]))) with v | r
      · rfl
      · dsimp only
        rw [load_applyWrites_createWrites]
        rfl

theorem rt_inspect_mem_ensure_network (env : RtEnv) (n : String) :
    Ev.rt (RtCmd.docker ["network", "inspect", n]) ∈ ensure_network env n := by
  simp only [ensure_network]
  split <;> simp

/-- C5 (amended): `AppInstance.create` does not treat a failed image pull or
network creation as fatal.  The filesystem outcome and the returned instance
are independent of every runtime exit status; `create` does invoke the pull
and the network inspection, but never examines their statuses.  By
contrast, `start()` is the call that inspects an exit status, downgrading
it to a boolean. -/
theorem create_runtime_exit_ignored (env env' : RtEnv) (app : App) (dir : FsPath)
    (vars : VarMap) (fs : Fs) :
    (AppInstance.create env app dir vars fs).map (fun t => (t.1, t.2.1))
      = (AppInstance.create env' app dir vars fs).map (fun t => (t.1, t.2.1))
    ∧ (∀ fs1 i1 ev1, AppInstance.create env app dir vars fs = Except.ok (fs1, i1, ev1) →
        Ev.rt (composeCmd i1 "pull" []) ∈ ev1
        ∧ Ev.rt (RtCmd.docker ["network", "inspect", DEFAULT_NETWORK_NAME]) ∈ ev1)
    ∧ (∀ inst, (AppInstance.start env inst).1 = true
        ↔ env (composeCmd inst "up" ["-d"]) = 0) := by
  refine ⟨create_env_indep env env' app dir vars fs, ?_, ?_⟩
  · intro fs1 i1 ev1 h
    obtain ⟨r, hr, hi, hfs, hev, hd1, hd2⟩ := create_ok_elim env app dir vars fs fs1 i1 ev1 h
    subst hi
    rw [hev]
    constructor
    · exact List.mem_append_right _ (List.mem_singleton_self _)
    · refine List.mem_append_left _ (List.mem_append_right _ ?_)
      exact rt_inspect_mem_ensure_network env DEFAULT_NETWORK_NAME
  · intro inst
    simp [AppInstance.start]

def envFail : RtEnv := fun _ => 1

/-- The result of a concrete `create` under a runtime in which every
command fails, used to refute C5 as stated. -/
def createResF : Fs × AppInstance × List Ev :=
  match AppInstance.create envFail app0 dir0 [("A", "1")] fs0 with
  | Except.ok t => t
  | Except.error _ => (fs0, ⟨"", [], []⟩, [])

/-- Counterexample to C5 as stated: under a runtime in which every command —
including the network inspection, the network creation and the image pull —
exits with status 1, `create` still returns a successfully created
instance instead of failing: the pull command is invoked (it is in the
event trace) but its non-zero status is ignored. -/
theorem create_pull_failure_not_fatal :
    envFail (composeCmd createResF.2.1 "pull" []) = 1
    ∧ envFail (RtCmd.docker ["network", "create", "--driver=bridge", DEFAULT_NETWORK_NAME]) = 1
    ∧ AppInstance.create envFail app0 dir0 [("A", "1")] fs0
        = Except.ok (createResF.1, createResF.2.1, createResF.2.2)
    ∧ Ev.rt (composeCmd createResF.2.1 "pull" []) ∈ createResF.2.2 := by
  refine ⟨rfl, rfl, by rfl, ?_⟩
  decide

/-- Witness for the amended C5 at a concrete input. -/
theorem create_runtime_exit_ignored_witness :
    Ev.rt (composeCmd createResF.2.1 "pull" []) ∈ createResF.2.2
    ∧ ((AppInstance.start envFail createResF.2.1).1 = true
        ↔ envFail (composeCmd createResF.2.1 "up" ["-d"]) = 0) :=
  ⟨((create_runtime_exit_ignored envFail env0 app0 dir0 [("A", "1")] fs0).2.1
      createResF.1 createResF.2.1 createResF.2.2 (by rfl)).1,
    (create_runtime_exit_ignored envFail env0 app0 dir0 [("A", "1")] fs0).2.2 createResF.2.1⟩

/-- C9 (amended): no lifecycle verb retries a failed runtime command —
each issues its command exactly once regardless of exit status — and
`start()` returns `True` exactly when `up` exits with status zero (its
codomain is `Bool`, so it never raises).  However, `stop`, `restart`,
`kill` and `pull` do not surface the exit status at all: their results are
fixed command traces, independent of the runtime environment, and the
Python functions return `None`. -/
theorem lifecycle_verbs_amended (env : RtEnv) (inst : AppInstance) :
    ((AppInstance.start env inst).1 = true ↔ env (composeCmd inst "up" ["-d"]) = 0)
    ∧ ((AppInstance.start env inst).2.filter
        (fun e => decide (e = Ev.rt (composeCmd inst "up" ["-d"])))).length = 1
    ∧ AppInstance.stop env inst = [Ev.rt (composeCmd inst "down" [])]
    ∧ AppInstance.restart env inst = [Ev.rt (composeCmd inst "restart" [])]
    ∧ AppInstance.kill env inst = [Ev.rt (composeCmd inst "kill" [])]
    ∧ AppInstance.pull env inst = [Ev.rt (composeCmd inst "pull" [])]
    ∧ AppInstance.destroy env inst = [Ev.rt (composeCmd inst "rm" ["-v"])] := by
  refine ⟨by simp [AppInstance.start], ?_, rfl, rfl, rfl, rfl, rfl⟩
  simp only [AppInstance.start]
  rw [List.filter_append]
  have hnet : (ensure_network env DEFAULT_NETWORK_NAME).filter
      (fun e => decide (e = Ev.rt (composeCmd inst "up" ["-d"]))) = [] := by
    simp only [ensure_network]
    split <;> rfl
  rw [hnet]
  simp [List.filter_cons]

def inst0 : AppInstance := ⟨"redis", dir0, [("A", "1")]⟩

/-- Counterexample to C9 as stated: the non-`start` lifecycle verbs do not
surface the runtime's exit status as a boolean or exit code.  Concretely,
`stop` (and likewise `pull`, `kill`, `restart`) returns exactly the same
value under a runtime where its command exits with status 1 as under one
where it exits with status 0 — in the Python source the
`subprocess.CompletedProcess` is discarded and the method returns `None`
either way, so the caller cannot observe the failure. -/
theorem stop_discards_exit_status :
    envFail (composeCmd inst0 "down" []) = 1
    ∧ env0 (composeCmd inst0 "down" []) = 0
    ∧ AppInstance.stop envFail inst0 = AppInstance.stop env0 inst0
    ∧ AppInstance.pull envFail inst0 = AppInstance.pull env0 inst0
    ∧ AppInstance.kill envFail inst0 = AppInstance.kill env0 inst0
    ∧ AppInstance.restart envFail inst0 = AppInstance.restart env0 inst0 :=
  ⟨rfl, rfl, rfl, rfl, rfl, rfl⟩

/-- Witness for the amended C9 at a concrete input. -/
theorem lifecycle_verbs_amended_witness :
    ((AppInstance.start env0 inst0).1 = true ↔ env0 (composeCmd inst0 "up" ["-d"]) = 0)
    ∧ AppInstance.stop env0 inst0 = [Ev.rt (composeCmd inst0 "down" [])] :=
  ⟨(lifecycle_verbs_amended env0 inst0).1, (lifecycle_verbs_amended env0 inst0).2.2.1⟩

/-- One entry of a directory listing (`os.listdir` plus what the code
observes about it): its name, whether it is a directory, and its top-level
files.  A non-directory entry has no files. -/
structure DirEntry : Type where
  name : String
  isDir : Bool
  files : List (String × FileData)
deriving DecidableEq

deriving instance DecidableEq for Except

/-- Python's `name.startswith(".")`: the name's first character is a dot. -/
def isHidden (s : String) : Bool :=
  match s.data with
  | [] => false
  | c :: _ => c = '.'

/-- Reading of the `data_files` sources declared in `berry.json`
(core.py, lines 110-114): for each `src -> dest` item, read the source
file from the app directory and record `dest -> contents` (a Python dict
assignment, so a repeated destination keeps the last contents). -/
def readDataFilesAux (e : DirEntry) :
    List (String × FsPath) → List (FsPath × String) → Except BerryErr (List (FsPath × String))
  | [], acc => Except.ok acc
  | (src, dest) :: rest, acc =>
    match alookup e.files src with
    | some (FileData.text c) => readDataFilesAux e rest (aupdate acc dest c)
    | some _ => Except.error (BerryErr.jsonError src)
    | none => Except.error (BerryErr.fileNotFound [e.name, src])

/-- Model of `App.load` (core.py, lines 90-122) on a definition directory:
fails unless the path is a directory, `berry.json` exists and parses, and
`docker-compose.tmpl.yml` exists; reads every declared data-file source
into the destination-to-contents map.  The manifest and template files are
represented pre-parsed (`FileData.berry` / `FileData.tmpl`): a file with
any other contents stands for one whose parse fails. -/
def App.load (e : DirEntry) : Except BerryErr App :=
  if e.isDir = false then Except.error (BerryErr.fileNotFound [e.name])
  else match alookup e.files "berry.json" with
    | none => Except.error (BerryErr.fileNotFound [e.name, "berry.json"])
    | some bj =>
      match alookup e.files "docker-compose.tmpl.yml" with
      | none => Except.error (BerryErr.fileNotFound [e.name, "docker-compose.tmpl.yml"])
      | some tf =>
        match bj with
        | FileData.berry nm ds vdefs srcdest =>
          match tf with
          | FileData.tmpl segs =>
            (readDataFilesAux e srcdest []).map (fun df => ⟨nm, ds, segs, vdefs, df⟩)
          | _ => Except.error (BerryErr.jsonError "docker-compose.tmpl.yml")
        | _ => Except.error (BerryErr.jsonError "berry.json")

/-- Model of `Resolver.iter_apps` (core.py, lines 40-49) over the catalog
root's directory listing: skip hidden names, then non-directories, then
directories lacking `berry.json`; load everything else in listing order. -/
def Resolver.iter_apps : List DirEntry → Except BerryErr (List App)
  | [] => Except.ok []
  | e :: rest =>
    if isHidden e.name then Resolver.iter_apps rest
    else if e.isDir = false then Resolver.iter_apps rest
    else if (alookup e.files "berry.json").isNone then Resolver.iter_apps rest
    else match App.load e with
      | Except.error err => Except.error err
      | Except.ok a => (Resolver.iter_apps rest).map (fun l => a :: l)

/-- The candidate predicate named by the spec for `iter_apps` (C6): an
entry that is not hidden, is a directory, and contains the manifest. -/
def appCandidate (e : DirEntry) : Bool :=
  !(isHidden e.name) && e.isDir && (alookup e.files "berry.json").isSome

/-- Loading a list of app directories in order: the spec side of C6
("yields exactly the Apps loaded from" the candidate subdirectories). -/
def loadApps : List DirEntry → Except BerryErr (List App)
  | [] => Except.ok []
  | e :: rest =>
    match App.load e, loadApps rest with
    | Except.error err, _ => Except.error err
    | Except.ok _, Except.error err => Except.error err
    | Except.ok a, Except.ok l => Except.ok (a :: l)

/-- C6: `iter_apps` yields exactly the apps loaded (in listing order) from
the immediate subdirectories that are non-hidden directories containing a
`berry.json` manifest; hidden entries, non-directories and manifest-less
directories are silently skipped and never contribute an error. -/
theorem iter_apps_yields_candidates (entries : List DirEntry) :
    Resolver.iter_apps entries = loadApps (entries.filter appCandidate) := by
  induction entries with
  | nil => rfl
  | cons e rest ih =>
    by_cases h1 : isHidden e.name = true
    · simp [Resolver.iter_apps, List.filter_cons, appCandidate, h1, ih]
    by_cases h2 : e.isDir = false
    · simp [Resolver.iter_apps, List.filter_cons, appCandidate, h1, h2, ih]
    by_cases h3 : (alookup e.files "berry.json").isNone
    · simp [Resolver.iter_apps, List.filter_cons, appCandidate, h1, h2, h3, ih]
    · have hc : appCandidate e = true := by
        rw [appCandidate]
        rw [Bool.and_eq_true, Bool.and_eq_true]
        refine ⟨⟨?_, ?_⟩, ?_⟩
        · simpa using h1
        · cases hb : e.isDir
          · exact absurd hb h2
          · rfl
        · cases hb : alookup e.files "berry.json"
          · exact absurd (by rw [hb]; rfl) h3
          · rfl
      rw [List.filter_cons]
      rw [hc]
      rw [if_pos rfl]
      rw [Resolver.iter_apps]
      rw [if_neg h1, if_neg h2, if_neg h3]
      rcases hl : App.load e with err | a
      · simp [loadApps, hl]
      · rcases hrest : Resolver.iter_apps rest with err | l <;> rw [hrest] at ih
        · simp [loadApps, hl, ← ih, Except.map]
        · simp [loadApps, hl, ← ih, Except.map]

/-- The filesystem view of a single instance directory entry under the
instances root: the directory itself plus its top-level files at their
full paths. -/
def entryFs (root : FsPath) (e : DirEntry) : Fs :=
  ⟨[root ++ [e.name]], e.files.map (fun p => ((root ++ [e.name]) ++ [p.1], p.2))⟩

/-- `AppInstance.load(os.path.join(self.instances_dir, name))` as invoked by
the registry (core.py, line 311): load an instance from its directory
entry. -/
def loadInstanceEntry (root : FsPath) (e : DirEntry) : Except BerryErr AppInstance :=
  AppInstance.load (entryFs root e) (root ++ [e.name])

theorem alookup_map_append (base : FsPath) (l : List (String × FileData)) (n : String) :
    alookup (l.map (fun p => (base ++ [p.1], p.2))) (base ++ [n]) = alookup l n := by
  induction l with
  | nil => rfl
  | cons p rest ih =>
    rw [List.map_cons]
    by_cases hp : p.1 = n
    · simp only [alookup]
      rw [if_pos (show base ++ [p.1] = base ++ [n] by rw [hp]), if_pos hp]
    · have hne : ¬(base ++ [p.1] = base ++ [n]) := fspath_append_singleton_ne _ _ _ hp
      simp only [alookup]
      rw [if_neg hne, if_neg hp, ih]

theorem alookup_entryFs (root : FsPath) (e : DirEntry) (n : String) :
    alookup (entryFs root e).files ((root ++ [e.name]) ++ [n]) = alookup e.files n :=
  alookup_map_append (root ++ [e.name]) e.files n

theorem loadInstanceEntry_eq (root : FsPath) (e : DirEntry) :
    loadInstanceEntry root e
      = match alookup e.files "berry-meta.json" with
        | some (FileData.meta n vars _) => Except.ok ⟨n, root ++ [e.name], vars⟩
        | some _ => Except.error (BerryErr.jsonError "berry-meta.json")
        | none => Except.error
            (BerryErr.fileNotFound ((root ++ [e.name]) ++ ["berry-meta.json"])) := by
  rw [loadInstanceEntry, AppInstance.load, alookup_entryFs]

/-- Load each element in order, propagating the first error — the Python
list comprehension with a fallible body. -/
def mapE {α β : Type} (f : α → Except BerryErr β) : List α → Except BerryErr (List β)
  | [] => Except.ok []
  | x :: rest =>
    match f x, mapE f rest with
    | Except.error err, _ => Except.error err
    | Except.ok _, Except.error err => Except.error err
    | Except.ok y, Except.ok l => Except.ok (y :: l)

/-- Model of `Core.list_instances` (core.py, lines 302-312) over the
instances root's directory listing: drop hidden entries, drop entries
without a `berry-meta.json`, load each survivor.  The `query` and `app`
parameters are accepted and — exactly as in the source — never used. -/
def Core.list_instances (root : FsPath) (entries : List DirEntry)
    (query : Option String) (app : Option String) : Except BerryErr (List AppInstance) :=
  let items := entries
  let items := items.filter (fun e => !(isHidden e.name))
  let items := items.filter (fun e => (alookup e.files "berry-meta.json").isSome)
  mapE (loadInstanceEntry root) items

/-- The candidate predicate named by the spec for `list_instances` (C7): a
non-hidden entry containing the metadata file. -/
def instCandidate (e : DirEntry) : Bool :=
  !(isHidden e.name) && (alookup e.files "berry-meta.json").isSome

theorem filter_filter_candidates (entries : List DirEntry) :
    ((entries.filter (fun e => !(isHidden e.name))).filter
        (fun e => (alookup e.files "berry-meta.json").isSome))
      = entries.filter instCandidate := by
  induction entries with
  | nil => rfl
  | cons e rest ih =>
    by_cases h1 : isHidden e.name = true <;>
      by_cases h2 : (alookup e.files "berry-meta.json").isSome <;>
        simp [List.filter_cons, instCandidate, h1, h2, ih]

theorem mapE_ok_length {α β : Type} (f : α → Except BerryErr β) (l : List α) (ys : List β)
    (h : mapE f l = Except.ok ys) : ys.length = l.length := by
  induction l generalizing ys with
  | nil =>
    rw [mapE] at h
    have h' := (Except.ok.inj h).symm
    subst h'
    rfl
  | cons x rest ih =>
    rw [mapE] at h
    rcases hx : f x with err | y <;> rw [hx] at h
    · cases h
    · rcases hrest : mapE f rest with err | l' <;> rw [hrest] at h
      · cases h
      · rw [← Except.ok.inj h]
        simp [ih l' hrest]

/-- C10: `Core.list_instances` ignores its `query` and `app` parameters
entirely — for every directory state and every pair of argument values it
returns the same result as the parameterless call. -/
theorem list_instances_ignores_filters (root : FsPath) (entries : List DirEntry)
    (query app : Option String) :
    Core.list_instances root entries query app
      = Core.list_instances root entries none none := rfl

/-- C7: `list_instances` returns exactly one loaded instance per non-hidden
entry containing a `berry-meta.json` (in listing order); an entry missing
its metadata file is silently excluded, never an error. -/
theorem list_instances_loads_candidates (root : FsPath) (entries : List DirEntry)
    (query app : Option String) :
    Core.list_instances root entries query app
      = mapE (loadInstanceEntry root) (entries.filter instCandidate)
    ∧ (∀ l, Core.list_instances root entries query app = Except.ok l →
        l.length = (entries.filter instCandidate).length) := by
  constructor
  · rw [Core.list_instances]
    rw [filter_filter_candidates]
  · intro l h
    rw [Core.list_instances, filter_filter_candidates] at h
    exact mapE_ok_length (loadInstanceEntry root) (entries.filter instCandidate) l h

def entries7 : List DirEntry :=
  [⟨"redis", true, [("berry-meta.json", FileData.meta "redis" [("A", "1")] [])]⟩,
   ⟨"broken", true, [("docker-compose.yml", FileData.text "x")]⟩]

/-- Witness for C7 at the spec's concrete scenario: one fully-formed
instance directory plus one directory missing its metadata file yield
exactly one instance. -/
theorem list_instances_loads_candidates_witness :
    Core.list_instances ["instances"] entries7 none none
      = Except.ok [⟨"redis", ["instances", "redis"], [("A", "1")]⟩]
    ∧ ([(⟨"redis", ["instances", "redis"], [("A", "1")]⟩ : AppInstance)]).length
      = (entries7.filter instCandidate).length :=
  ⟨by rfl,
    (list_instances_loads_candidates ["instances"] entries7 none none).2
      [⟨"redis", ["instances", "redis"], [("A", "1")]⟩] (by rfl)⟩

/-- Model of `Core.get_instance` (core.py, lines 314-323): linear scan of
`list_instances()` for the first instance with the given `app_name`,
returning `none` when absent.  The `instance_id` parameter is accepted
and, as in the source, never used. -/
def Core.get_instance (root : FsPath) (entries : List DirEntry) (app_name : String)
    (instance_id : Option String) : Except BerryErr (Option AppInstance) :=
  (Core.list_instances root entries none none).map
    (fun l => l.find? (fun i => i.app_name == app_name))

/-- Model of `Core.remove_instance` (core.py, lines 325-329): stop the
workload, destroy runtime-managed resources, then delete the instance
directory recursively (`shutil.rmtree`); the event trace records the
order, and the directory listing loses the instance's entry. -/
def Core.remove_instance (env : RtEnv) (root : FsPath) (entries : List DirEntry)
    (inst : AppInstance) : List DirEntry × List Ev :=
  (entries.filter (fun e => decide (root ++ [e.name] ≠ inst.instance_dir)),
    AppInstance.stop env inst ++ AppInstance.destroy env inst
      ++ [Ev.rmTree inst.instance_dir])

/-- The `name` recorded in an entry's metadata file, when present and
well-formed. -/
def metaName (e : DirEntry) : Option String :=
  match alookup e.files "berry-meta.json" with
  | some (FileData.meta n _ _) => some n
  | _ => none

theorem mapE_cons_ok {α β : Type} (f : α → Except BerryErr β) (x : α) (l : List α)
    (ys : List β) (h : mapE f (x :: l) = Except.ok ys) :
    ∃ y l', f x = Except.ok y ∧ mapE f l = Except.ok l' ∧ ys = y :: l' := by
  rw [mapE] at h
  rcases hx : f x with err | y <;> rw [hx] at h
  · cases h
  · rcases hrest : mapE f l with err | l' <;> rw [hrest] at h
    · cases h
    · exact ⟨y, l', rfl, rfl, (Except.ok.inj h).symm⟩

theorem mapE_ok_of_sublist {α β : Type} (f : α → Except BerryErr β) {l' l : List α}
    (hsub : List.Sublist l' l) :
    ∀ ys, mapE f l = Except.ok ys → ∃ ys', mapE f l' = Except.ok ys' := by
  induction hsub with
  | slnil => exact fun ys h => ⟨ys, h⟩
  | cons a hs ih =>
    intro ys h
    obtain ⟨y, l₂, hx, hrest, rfl⟩ := mapE_cons_ok f a _ ys h
    exact ih l₂ hrest
  | cons₂ a hs ih =>
    intro ys h
    obtain ⟨y, l₂, hx, hrest, rfl⟩ := mapE_cons_ok f a _ ys h
    obtain ⟨ys', hys'⟩ := ih l₂ hrest
    exact ⟨y :: ys', by rw [mapE, hx, hys']⟩

theorem mapE_ok_mem {α β : Type} (f : α → Except BerryErr β) (l : List α) (ys : List β)
    (h : mapE f l = Except.ok ys) (y : β) (hy : y ∈ ys) :
    ∃ x ∈ l, f x = Except.ok y := by
  induction l generalizing ys with
  | nil =>
    rw [mapE] at h
    have h' := (Except.ok.inj h).symm
    subst h'
    exact absurd hy (List.not_mem_nil y)
  | cons x rest ih =>
    obtain ⟨y', l', hx, hrest, rfl⟩ := mapE_cons_ok f x rest ys h
    rcases List.mem_cons.mp hy with hy | hy
    · subst hy
      exact ⟨x, List.mem_cons_self x rest, hx⟩
    · obtain ⟨x', hx', hfx'⟩ := ih l' hrest hy
      exact ⟨x', List.mem_cons_of_mem x hx', hfx'⟩

theorem filter_comm_lists {α : Type} (p q : α → Bool) (l : List α) :
    (l.filter p).filter q = (l.filter q).filter p := by
  induction l with
  | nil => rfl
  | cons x rest ih =>
    by_cases hp : p x <;> by_cases hq : q x <;> simp [List.filter_cons, hp, hq, ih]

theorem loadInstanceEntry_ok_name (root : FsPath) (e : DirEntry) (i : AppInstance)
    (h : loadInstanceEntry root e = Except.ok i) :
    metaName e = some i.app_name ∧ i.instance_dir = root ++ [e.name] := by
  rw [loadInstanceEntry_eq] at h
  rcases hm : alookup e.files "berry-meta.json" with _ | fd <;> rw [hm] at h
  · cases h
  · cases fd with
    | text s => cases h
    | tmpl t => cases h
    | berry a b c d => cases h
    | meta n vars df =>
      have h' := Except.ok.inj h
      rw [metaName, hm, ← h']
      exact ⟨rfl, rfl⟩

/-- C8: `remove_instance` performs, in order, the runtime teardown (stop,
then destroy) and only then the recursive directory deletion; afterwards
the instance's directory entry is gone from the instances root and
`get_instance(app_name)` returns the not-found sentinel `None` (provided
the removed instance was the one whose metadata held that name, which the
claim presumes). -/
theorem remove_instance_spec (env : RtEnv) (root : FsPath) (entries : List DirEntry)
    (app_name : String) (inst : AppInstance)
    (hget : Core.get_instance root entries app_name none = Except.ok (some inst))
    (huniq : ∀ e ∈ entries, metaName e = some app_name →
        root ++ [e.name] = inst.instance_dir) :
    (Core.remove_instance env root entries inst).2
      = [Ev.rt (composeCmd inst "down" []), Ev.rt (composeCmd inst "rm" ["-v"]),
          Ev.rmTree inst.instance_dir]
    ∧ (∀ e ∈ (Core.remove_instance env root entries inst).1,
        root ++ [e.name] ≠ inst.instance_dir)
    ∧ Core.get_instance root (Core.remove_instance env root entries inst).1 app_name none
        = Except.ok none := by
  refine ⟨rfl, ?_, ?_⟩
  · intro e he
    exact of_decide_eq_true (List.mem_filter.mp he).2
  · rw [Core.get_instance] at hget
    rcases hl : Core.list_instances root entries none none with err | l <;> rw [hl] at hget
    · cases hget
    · rw [Core.list_instances, filter_filter_candidates] at hl
      rw [Core.get_instance, Core.list_instances, filter_filter_candidates]
      rw [show (Core.remove_instance env root entries inst).1
          = entries.filter (fun e => decide (root ++ [e.name] ≠ inst.instance_dir)) from rfl]
      rw [filter_comm_lists]
      have hsub : List.Sublist ((entries.filter instCandidate).filter
          (fun e => decide (root ++ [e.name] ≠ inst.instance_dir)))
          (entries.filter instCandidate) := List.filter_sublist _
      obtain ⟨ys', hys'⟩ := mapE_ok_of_sublist (loadInstanceEntry root) hsub l hl
      rw [hys']
      have hnone : ys'.find? (fun i => i.app_name == app_name) = none := by
        rw [List.find?_eq_none]
        intro y hy heq
        obtain ⟨x, hx, hfx⟩ := mapE_ok_mem (loadInstanceEntry root) _ ys' hys' y hy
        obtain ⟨hmn, hdir⟩ := loadInstanceEntry_ok_name root x y hfx
        have heq' : y.app_name = app_name := by simpa using heq
        have hx1 := List.mem_filter.mp hx
        have hx2 := List.mem_filter.mp hx1.1
        have hne := of_decide_eq_true hx1.2
        exact hne (huniq x hx2.1 (by rw [hmn, heq']))
      show Except.ok (ys'.find? (fun i => i.app_name == app_name)) = Except.ok none
      rw [hnone]

def entries8 : List DirEntry :=
  [⟨"redis", true, [("berry-meta.json", FileData.meta "redis" [("A", "1")] [])]⟩,
   ⟨"mosquitto", true, [("berry-meta.json", FileData.meta "mosquitto" [] [])]⟩]

def inst8 : AppInstance := ⟨"redis", ["instances", "redis"], [("A", "1")]⟩

/-- Witness for C8 at a concrete input: removing the installed "redis"
instance leaves a listing in which it is gone and unfindable, with the
teardown commands strictly preceding the directory deletion. -/
theorem remove_instance_spec_witness :
    (Core.remove_instance env0 ["instances"] entries8 inst8).2
      = [Ev.rt (composeCmd inst8 "down" []), Ev.rt (composeCmd inst8 "rm" ["-v"]),
          Ev.rmTree inst8.instance_dir]
    ∧ (∀ e ∈ (Core.remove_instance env0 ["instances"] entries8 inst8).1,
        ["instances"] ++ [e.name] ≠ inst8.instance_dir)
    ∧ Core.get_instance ["instances"] (Core.remove_instance env0 ["instances"] entries8 inst8).1
        "redis" none = Except.ok none :=
  remove_instance_spec env0 ["instances"] entries8 "redis" inst8 (by rfl) (by decide)

/-- One prompt of `configure_options` (cli.py, lines 33-43): the prompt's
default is the persisted value when present, else the declared default;
the operator's explicit entry (when present in `inputs`) overrides it,
and `click.prompt` returns the default when the operator just accepts.
The result dictionary gains the binding. -/
def configureStep (defaults inputs result : VarMap) (var : VarDef) : VarMap :=
  let default_value := (alookup defaults var.name).getD var.default
  let value := (alookup inputs var.name).getD default_value
  aupdate result var.name value

/-- Model of `configure_options` (cli.py, lines 30-44): prompt for each
declared variable in order, accumulating `result[name] = value`
dict-style; `inputs` holds the operator's explicit entries (an absent key
means the operator accepted the prompt's default). -/
def configure_options (variable_definitions : List VarDef) (defaults inputs : VarMap) :
    VarMap :=
  variable_definitions.foldl (configureStep defaults inputs) []

/-- Model of the variable handling of `install` (cli.py, lines 98-121):
start from a copy of the supplied reinstall defaults (`variables = {}`
then `variables.update(default_variables)`); when the app declares no
variables they are kept as-is; otherwise the confirmation loop runs
`configure_options` at least once, each round re-prompting with the
previous round's result as defaults (`rounds` lists the operator's
entries per round).  The confirmed variables are what
`app.create_instance(variables)` then persists.  The already-installed
check and the autostart branch are omitted: on the reinstall path they do
not affect the computed variables. -/
def install_variables (app : App) (default_variables : Option VarMap)
    (rounds : List VarMap) : VarMap :=
  let vs := default_variables.getD []
  if app.variable_definitions.isEmpty then vs
  else rounds.foldl (fun cur inputs => configure_options app.variable_definitions cur inputs) vs

/-- Model of `reinstall` (cli.py, lines 139-152): fetch the installed
instance and invoke `install` with `default_variables := inst.variables`
(the previously persisted variables). -/
def reinstall_variables (app : App) (prior : VarMap) (rounds : List VarMap) : VarMap :=
  install_variables app (some prior) rounds

/-- Counterexample to C4 as stated: a previously persisted variable that is
absent from the app's current variable declarations is silently dropped by
reinstall even though the operator never changed it.  With prior variables
`PORT=3000`, an app declaring only `HOST`, and the operator accepting every
prompt default, the reinstalled variables are `HOST=h` — `PORT` is gone. -/
theorem reinstall_drops_undeclared_variable :
    reinstall_variables ⟨"web", "", [], [⟨"HOST", "", "h"⟩], []⟩ [("PORT", "3000")] [[]]
      = [("HOST", "h")]
    ∧ alookup (reinstall_variables ⟨"web", "", [], [⟨"HOST", "", "h"⟩], []⟩
        [("PORT", "3000")] [[]]) "PORT" = none := by
  exact ⟨rfl, rfl⟩

theorem configure_fold_preserves (defaults inputs : VarMap) (k pv : String)
    (hd : alookup defaults k = some pv) (hin : alookup inputs k = none) :
    ∀ (defs : List VarDef) (acc : VarMap),
      ((∃ vd ∈ defs, vd.name = k) ∨ alookup acc k = some pv) →
      alookup (defs.foldl (configureStep defaults inputs) acc) k = some pv := by
  intro defs
  induction defs with
  | nil =>
    intro acc hbase
    rcases hbase with h | h
    · obtain ⟨vd, hvd, _⟩ := h
      exact absurd hvd (List.not_mem_nil vd)
    · exact h
  | cons vd rest ih =>
    intro acc hbase
    rw [List.foldl_cons]
    by_cases hk : vd.name = k
    · refine ih _ (Or.inr ?_)
      rw [configureStep, hk, hin, hd]
      exact alookup_aupdate_self _ _ _
    · refine ih _ ?_
      rcases hbase with h | h
      · obtain ⟨vd', hvd', hname⟩ := h
        rcases List.mem_cons.mp hvd' with h1 | h1
        · subst h1
          exact absurd hname hk
        · exact Or.inl ⟨vd', h1, hname⟩
      · refine Or.inr ?_
        rw [configureStep, alookup_aupdate_ne _ _ _ _ (fun hh => hk hh.symm)]
        exact h

def appPort : App := ⟨"web", "a web app", [], [⟨"PORT", "listen port", "80"⟩], []⟩

/-- C4 (amended): reinstall merges the previously persisted variables as
prompt defaults underneath the operator's explicit overrides for every
variable still among the app's declared variable definitions: overriding
`PORT=3000` with `4000` yields `PORT=4000`, accepting the defaults
preserves `PORT=3000`, a declared prior variable the operator never
explicitly changes keeps its prior value through any number of
confirmation rounds, and when the app declares no variables the prior
variables are kept verbatim.  (As the counterexample shows, a prior
variable absent from a non-empty declaration list is dropped, so the
unconditional "no previously configured value is dropped" reading fails.) -/
theorem reinstall_merge_amended :
    reinstall_variables appPort [("PORT", "3000")] [[("PORT", "4000")]] = [("PORT", "4000")]
    ∧ reinstall_variables appPort [("PORT", "3000")] [[]] = [("PORT", "3000")]
    ∧ (∀ (app : App) (prior : VarMap) (rounds : List VarMap) (k pv : String),
        alookup prior k = some pv →
        (∃ vd ∈ app.variable_definitions, vd.name = k) →
        (∀ r ∈ rounds, alookup r k = none) →
        alookup (reinstall_variables app prior rounds) k = some pv)
    ∧ (∀ (app : App) (prior : VarMap) (rounds : List VarMap),
        app.variable_definitions = [] → reinstall_variables app prior rounds = prior) := by
  refine ⟨rfl, rfl, ?_, ?_⟩
  · intro app prior rounds k pv hp hdecl hr
    rw [reinstall_variables, install_variables]
    have hne : app.variable_definitions.isEmpty = false := by
      obtain ⟨vd, hvd, _⟩ := hdecl
      cases hdefs : app.variable_definitions
      · rw [hdefs] at hvd
        exact absurd hvd (List.not_mem_nil vd)
      · rfl
    rw [hne]
    simp only [Bool.false_eq_true, if_false]
    suffices h : ∀ (rounds' : List VarMap) (vs : VarMap), alookup vs k = some pv →
        (∀ r ∈ rounds', alookup r k = none) →
        alookup (rounds'.foldl
          (fun cur inputs => configure_options app.variable_definitions cur inputs) vs) k
          = some pv by
      exact h rounds prior hp hr
    intro rounds'
    induction rounds' with
    | nil =>
      intro vs hvs _
      exact hvs
    | cons r rest ih =>
      intro vs hvs hall
      rw [List.foldl_cons]
      refine ih _ ?_ (fun r' hr' => hall r' (List.mem_cons_of_mem r hr'))
      rw [configure_options]
      exact configure_fold_preserves vs r k pv hvs (hall r (List.mem_cons_self r rest))
        app.variable_definitions [] (Or.inl hdecl)
  · intro app prior rounds h
    rw [reinstall_variables, install_variables, h]
    rfl

/-- Witness for the amended C4 at a concrete input. -/
theorem reinstall_merge_amended_witness :
    alookup (reinstall_variables appPort [("PORT", "3000")] [[]]) "PORT" = some "3000" :=
  reinstall_merge_amended.2.2.1 appPort [("PORT", "3000")] [[]] "PORT" "3000" (by decide)
    ⟨⟨"PORT", "listen port", "80"⟩, by decide, rfl⟩ (by decide)
